import Mathlib

/-!
Verification of the retrieval core of the media-mind-ai backend.

Shallow embedding of:
- `app/services/pdf_service.py` (`PDFService.process_pdf`, `_chunk_fixed_size`),
- `app/services/vector_store.py` (`VectorStore.build_index`, `add_embedding`,
  `search`, `save_index`/`load_index`),
- `app/services/timestamp_service.py` (`_text_overlap`,
  `_merge_overlapping_segments`).

Python strings are modelled as `List Char`, Python ints as `Int` (`Nat` where
the source can only produce non-negative values), and Python floats as `ℚ`
(the float literals `0.7`, `0.3`, `2.0` are idealized as the exact rationals
`7/10`, `3/10`, `2`; none of the claims below depends on a float rounding
boundary).  Python dicts keyed by index positions are modelled as association
lists with Python's insert-or-overwrite semantics.
-/

/-- Python slice-bound normalization: for a list of length `len`, Python's
`l[a:b]` clamps a negative bound to `max 0 (len + bound)` and a non-negative
bound to `min bound len`. -/
def pyIdx (len : Nat) (i : Int) : Nat :=
  if i < 0 then ((len : Int) + i).toNat else min i.toNat len

/-- Python `l[:b]`. -/
def pyTake (l : List Char) (b : Int) : List Char :=
  l.take (pyIdx l.length b)

/-- Python `l[a:b]`. -/
def pySlice (l : List Char) (a b : Int) : List Char :=
  (l.take (pyIdx l.length b)).drop (pyIdx l.length a)

/-- Python `str.rfind(c)`: index of the last occurrence of `c`, or `-1`. -/
def pyRfind : List Char → Char → Int
  | [], _ => -1
  | a :: l, c =>
    let r := pyRfind l c
    if r ≥ 0 then r + 1 else if a = c then 0 else -1

/-- Python `str.strip()`: drop leading and trailing whitespace. -/
def pyStrip (l : List Char) : List Char :=
  ((l.dropWhile Char.isWhitespace).reverse.dropWhile Char.isWhitespace).reverse

/-- Python `str.split()` with no arguments: split on runs of whitespace,
discarding empty tokens. -/
def pySplitWsAux : List Char → List Char → List (List Char)
  | [], acc => if acc = [] then [] else [acc.reverse]
  | ch :: rest, acc =>
    if ch.isWhitespace then
      if acc = [] then pySplitWsAux rest []
      else acc.reverse :: pySplitWsAux rest []
    else pySplitWsAux rest (ch :: acc)

/-- Python `str.split()` with no arguments. -/
def pySplitWs (l : List Char) : List (List Char) := pySplitWsAux l []

/-- Python `enumerate(xs, start)`. -/
def pyEnumerate {α : Type} : Nat → List α → List (Nat × α)
  | _, [] => []
  | n, a :: l => (n, a) :: pyEnumerate (n + 1) l

/-- Python `d[k]` / `k in d` for an int-keyed dict modelled as an
association list. -/
def dictLookup : List (Nat × Nat) → Nat → Option Nat
  | [], _ => none
  | (k, v) :: rest, i => if i = k then some v else dictLookup rest i

/-- Python `d[k] = v` for an int-keyed dict: overwrite in place if the key is
present, append otherwise. -/
def dictInsert : List (Nat × Nat) → Nat → Nat → List (Nat × Nat)
  | [], k, v => [(k, v)]
  | (k', v') :: rest, k, v =>
    if k = k' then (k, v) :: rest else (k', v') :: dictInsert rest k v

/-! ## Fixed-size chunking (`PDFService._chunk_fixed_size`) -/

/-- One chunk record as produced by `_chunk_fixed_size`
(`token_count`, irrelevant to the claims, is omitted). -/
structure Chunk where
  text : List Char
  start_char : Int
  end_char : Int
deriving DecidableEq

/-- One iteration's window computation in `_chunk_fixed_size`: from `start`,
take the window `text[start : start+chunk_size]`; if the window's right edge
falls mid-text, look for the last space and trim back to it when
`last_space > chunk_size * 0.7` (the float literal `0.7` idealized as `7/10`,
hence the comparison `10 * last_space > 7 * chunk_size`).  Returns the
(possibly trimmed) chunk text together with the final `end` value. -/
def chunkStep (text : List Char) (chunk_size : Int) (start : Int) :
    List Char × Int :=
  let end0 := start + chunk_size
  let w := pySlice text start end0
  if end0 < (text.length : Int) then
    let last_space := pyRfind w ' '
    if 10 * last_space > 7 * chunk_size then
      (pyTake w last_space, start + last_space)
    else (w, end0)
  else (w, end0)

/-- Fuel-indexed unfolding of the `while start < len(text)` loop of
`_chunk_fixed_size`.  Each loop iteration consumes one unit of fuel;
`none` means the fuel ran out before the loop exited.  The appended chunk is
`{"text": chunk_text.strip(), "start_char": start,
  "end_char": start + len(chunk_text)}` and the next start is
`end - chunk_overlap`. -/
def chunkFixedSizeAux (text : List Char) (chunk_size chunk_overlap : Int) :
    Nat → Int → Option (List Chunk)
  | 0, start => if start < (text.length : Int) then none else some []
  | fuel + 1, start =>
    if start < (text.length : Int) then
      let tp := chunkStep text chunk_size start
      match chunkFixedSizeAux text chunk_size chunk_overlap fuel
          (tp.2 - chunk_overlap) with
      | none => none
      | some rest =>
        some (⟨pyStrip tp.1, start, start + (tp.1.length : Int)⟩ :: rest)
    else some []

/-- `_chunk_fixed_size(text, chunk_size, chunk_overlap)`, run with fuel
`len(text) + 1` (enough for every terminating execution of the Python loop,
whose start position must strictly increase to terminate). -/
def chunkFixedSize (text : List Char) (chunk_size chunk_overlap : Int) :
    Option (List Chunk) :=
  chunkFixedSizeAux text chunk_size chunk_overlap (text.length + 1) 0

/-- `process_pdf`'s parameter resolution `value or settings.default`:
Python replaces a falsy argument (`None` or `0`) by the configured default
and passes any other value through unchanged. -/
def resolveParam (given : Option Int) (dflt : Int) : Int :=
  match given with
  | none => dflt
  | some v => if v = 0 then dflt else v

/-! ## `PDFService.process_pdf` state transition -/

/-- A stored `DocumentChunk` row (only the fields the claims are about). -/
structure ChunkRow where
  file_id : Nat
  chunk_index : Nat
  text : List Char
deriving DecidableEq

/-- The error exits of `process_pdf`. -/
inductive PdfErr where
  | notPdf
  | fileNotFound
  | extractFailed
  | emptyText
deriving DecidableEq

/-- `PDFService.process_pdf` as a transition on the stored chunk table.
Mirrors the source order of operations: file-type check, file-existence
check, *delete + commit* of the document's existing chunks, text extraction
(`extractResult = none` models an extraction exception), the
empty/whitespace-only text check, then chunk creation + commit.
`split` stands for `_split_text_into_chunks` (the strategies are modelled
separately); `pyEnumerate` assigns `chunk_index`. -/
def processPdf (db : List ChunkRow) (fid : Nat) ( isPdf fileOnDisk : Bool)
    (extractResult : Option (List Char)) (split : List Char → List (List Char)) :
    List ChunkRow × Option PdfErr :=
  if isPdf = false then (db, some .notPdf)
  else if fileOnDisk = false then (db, some .fileNotFound)
  else
    let db1 := db.filter fun r => r.file_id ≠ fid
    match extractResult with
    | none => (db1, some .extractFailed)
    | some t =>
      if pyStrip t = [] then (db1, some .emptyText)
      else
        (db1 ++ (pyEnumerate 0 (split t)).map fun p => ⟨fid, p.1, p.2⟩, none)

/-! ## Vector store (`app/services/vector_store.py`) -/

/-- Squared Euclidean (L2) distance, the metric of `faiss.IndexFlatL2`. -/
def sqDist (q v : List ℚ) : ℚ :=
  ((q.zip v).map fun p => (p.1 - p.2) ^ 2).sum

/-- Comparison of `(position-or-id, distance)` pairs by distance. -/
def distLe (a b : Nat × ℚ) : Prop := a.2 ≤ b.2

instance : DecidableRel distLe := fun a b =>
  inferInstanceAs (Decidable (a.2 ≤ b.2))

instance : IsTotal (Nat × ℚ) distLe := ⟨fun a b => le_total a.2 b.2⟩

instance : IsTrans (Nat × ℚ) distLe := ⟨fun _ _ _ h1 h2 => le_trans h1 h2⟩

/-- Modelled from the spec: `faiss.IndexFlatL2.search` is not part of this
repository; per the spec it returns the `k` nearest stored vectors by squared
L2 distance, "ascending by distance (best match first)", as
`(index position, distance)` pairs.  Ties are resolved by insertion order
(stable sort). -/
def faissSearch (vecs : List (List ℚ)) (q : List ℚ) (k : Nat) :
    List (Nat × ℚ) :=
  (List.insertionSort distLe
    (pyEnumerate 0 (vecs.map fun v => sqDist q v))).take k

/-- The mutable state of a `VectorStore`: `self.index` (the FAISS index,
`none` when unset, otherwise the list of stored vectors), `self.dimension`,
and `self.chunk_id_map` (FAISS position → chunk id). -/
structure VectorStore where
  index : Option (List (List ℚ))
  dimension : Option Nat
  chunk_id_map : List (Nat × Nat)
deriving DecidableEq

/-- `settings.search_top_k`. -/
def searchTopKDefault : Nat := 5

/-- `VectorStore.search(query_embedding, top_k)`: empty result for a missing
or empty index; otherwise `top_k or settings.search_top_k` (Python falsiness:
`0` is replaced by the default), FAISS search for `min(top_k, ntotal)`
neighbours, then positions are mapped through `chunk_id_map`, silently
skipping positions absent from the map. -/
def VectorStore.search (st : VectorStore) (q : List ℚ) (top_k : Nat) :
    List (Nat × ℚ) :=
  match st.index with
  | none => []
  | some vecs =>
    if vecs.length = 0 then []
    else
      let k := if top_k = 0 then searchTopKDefault else top_k
      (faissSearch vecs q (min k vecs.length)).filterMap fun p =>
        (dictLookup st.chunk_id_map p.1).map fun cid => (cid, p.2)

/-- `VectorStore.build_index(db)` given the embeddings returned by the
database query, in order, as `(chunk_id, vector)` pairs: with no embeddings
the index is set to `None` and nothing else changes; otherwise the dimension
is taken from the first embedding, the vectors are stacked in order, and
`chunk_id_map` maps each position to its chunk id. -/
def VectorStore.buildIndex (st : VectorStore)
    (embeddings : List (Nat × List ℚ)) : VectorStore :=
  match embeddings with
  | [] => { st with index := none }
  | e :: _ =>
    { index := some (embeddings.map fun p => p.2),
      dimension := some e.2.length,
      chunk_id_map := pyEnumerate 0 (embeddings.map fun p => p.1) }

/-- The `ValueError` raised by `VectorStore.add_embedding` on a dimension
mismatch, carrying the values interpolated into the Python message. -/
inductive VsError where
  | dimensionMismatch (expected : Option Nat) (got : Nat)
deriving DecidableEq

/-- `VectorStore.add_embedding(chunk_id, v, db)`: a `None` index is created
fresh (establishing `dimension := len(v)` and resetting `chunk_id_map`) and
the vector inserted at position 0; with an existing index a dimension
mismatch raises; otherwise the vector is appended at position `ntotal` and
the map extended. -/
def VectorStore.addEmbedding (st : VectorStore) (chunk_id : Nat)
    (v : List ℚ) : Except VsError VectorStore :=
  match st.index with
  | none => .ok ⟨some [v], some v.length, [(0, chunk_id)]⟩
  | some vecs =>
    if st.dimension ≠ some v.length then
      .error (.dimensionMismatch st.dimension v.length)
    else
      .ok ⟨some (vecs ++ [v]), st.dimension,
        dictInsert st.chunk_id_map vecs.length chunk_id⟩

/-- The state of the store object after calling `add_embedding` and catching
any exception: the Python `raise` happens before any mutation, so on error
the object is exactly as before. -/
def VectorStore.addEmbeddingRun (st : VectorStore) (chunk_id : Nat)
    (v : List ℚ) : VectorStore × Option VsError :=
  match st.addEmbedding chunk_id v with
  | .ok st' => (st', none)
  | .error e => (st, some e)

/-- The contents of the on-disk FAISS index artifact: the vector matrix plus
its dimension (`index.d`). -/
structure IndexSnapshot where
  vecs : List (List ℚ)
  dim : Nat
deriving DecidableEq

/-- State of one on-disk artifact: absent, present but unreadable (reading
it raises), or present with readable contents. -/
inductive FsFile (α : Type) where
  | missing
  | corrupt
  | good (a : α)
deriving DecidableEq

/-- `VectorStore.load_index()` as a function of the two on-disk artifacts.
Mirrors the source: a missing index file returns `False` untouched; reading
the index file assigns `self.index` and `self.dimension`; a *missing*
mapping file is skipped silently (returning `True` with the previous map);
any exception (unreadable artifact) is caught and returns `False` — but an
exception while reading the mapping file strikes after `self.index` was
already overwritten. -/
def VectorStore.loadIndex (st : VectorStore) (idxFile : FsFile IndexSnapshot)
    (mapFile : FsFile (List (Nat × Nat))) : VectorStore × Bool :=
  match idxFile with
  | .missing => (st, false)
  | .corrupt => (st, false)
  | .good snap =>
    let st1 : VectorStore :=
      { st with index := some snap.vecs, dimension := some snap.dim }
    match mapFile with
    | .missing => (st1, true)
    | .corrupt => (st1, false)
    | .good m => ({ st1 with chunk_id_map := m }, true)

/-- Spec-side ranking for the refinement claim, following the spec's words:
"directly computing L2 distance against `E` and taking the k smallest" —
annotate every embedding with its squared L2 distance to the query, sort
ascending by distance (stable), and keep the first `k`. -/
def specRanking (E : List (Nat × List ℚ)) (q : List ℚ) (k : Nat) :
    List (Nat × ℚ) :=
  (List.insertionSort distLe (E.map fun e => (e.1, sqDist q e.2))).take k

/-! ## Timestamp service (`app/services/timestamp_service.py`) -/

/-- `set(text.split())`: the set of whitespace-separated tokens. -/
def tokenSet (l : List Char) : Finset (List Char) :=
  (pySplitWs l).toFinset

/-- The token set of the lower-cased text (what the claim says
`_text_overlap` compares; the callers, not `_text_overlap` itself,
lower-case). -/
def lowerTokens (l : List Char) : Finset (List Char) :=
  tokenSet (l.map Char.toLower)

namespace TimestampService

/-- `TimestampService._text_overlap(text1, text2, threshold)`: token sets of
the two texts as given (no lower-casing happens here); `False` if either set
is empty; otherwise Jaccard similarity `|A∩B| / |A∪B|` compared against the
threshold (float division idealized as exact rational division). -/
def textOverlap (text1 text2 : List Char) (threshold : ℚ) : Bool :=
  let words1 := tokenSet text1
  let words2 := tokenSet text2
  if words1 = ∅ ∨ words2 = ∅ then false
  else
    let inter := words1 ∩ words2
    let uni := words1 ∪ words2
    if uni = ∅ then false
    else decide (((inter.card : ℚ) / (uni.card : ℚ)) ≥ threshold)

end TimestampService

/-- A transcript segment dict (`start`, `end`, `text`, `duration`); `end` is
a Lean keyword, so the field is named `endTime`. -/
structure TsSegment where
  start : ℚ
  endTime : ℚ
  text : List Char
  duration : ℚ
deriving DecidableEq

namespace TimestampService

/-- The merging loop of `_merge_overlapping_segments` with running segment
`cur`: segment `s` is merged into `cur` when
`s.start <= cur.end + gap_threshold`, extending `end` to the max,
concatenating texts with a single space, and recomputing
`duration = end - start`; otherwise `cur` is emitted and `s` starts a new
running segment. -/
def mergeAux (gap : ℚ) : TsSegment → List TsSegment → List TsSegment
  | cur, [] => [cur]
  | cur, s :: rest =>
    if s.start ≤ cur.endTime + gap then
      mergeAux gap
        { start := cur.start,
          endTime := max cur.endTime s.endTime,
          text := cur.text ++ ' ' :: s.text,
          duration := max cur.endTime s.endTime - cur.start } rest
    else cur :: mergeAux gap s rest

/-- `TimestampService._merge_overlapping_segments(segments, gap_threshold)`. -/
def mergeOverlappingSegments (segments : List TsSegment) (gap : ℚ) :
    List TsSegment :=
  match segments with
  | [] => []
  | s :: rest => mergeAux gap s rest

end TimestampService

/-! ## Lemmas about the fixed-size chunker -/

/-- Progress of the chunking loop: with `chunk_size > 0`, `overlap ≥ 0` and
`10 * overlap < 7 * chunk_size`, every iteration moves the start strictly
forward (both in the trimmed and in the untrimmed case). -/
theorem chunkStep_progress (text : List Char) (chunk_size chunk_overlap : Int)
    (start : Int) (hcs : 0 < chunk_size) (hb : 10 * chunk_overlap < 7 * chunk_size) :
    start + 1 ≤ (chunkStep text chunk_size start).2 - chunk_overlap := by
  unfold chunkStep
  dsimp only
  split_ifs with h1 h2
  · -- trimmed: end = start + last_space with 10 * last_space > 7 * chunk_size
    have : chunk_overlap < pyRfind (pySlice text start (start + chunk_size)) ' ' := by
      omega
    omega
  · omega
  · omega

/-- The chunking loop, run with enough fuel, returns a chunk list whose
`start_char`s are bounded below by the current start, strictly increasing,
and non-empty whenever the loop is entered. -/
theorem chunkFixedSizeAux_spec (text : List Char) (chunk_size chunk_overlap : Int)
    (hcs : 0 < chunk_size) (hb : 10 * chunk_overlap < 7 * chunk_size) :
    ∀ (fuel : Nat) (start : Int), (text.length : Int) < start + fuel →
      ∃ chunks, chunkFixedSizeAux text chunk_size chunk_overlap fuel start = some chunks ∧
        (∀ c ∈ chunks, start ≤ c.start_char) ∧
        List.Chain' (fun a b => a.start_char < b.start_char) chunks ∧
        (start < (text.length : Int) → chunks ≠ []) := by
  intro fuel
  induction fuel with
  | zero =>
    intro start hf
    have hge : ¬ start < (text.length : Int) := by push_cast at hf ⊢; omega
    refine ⟨[], ?_, by simp, by simp, fun h => absurd h hge⟩
    simp [chunkFixedSizeAux, hge]
  | succ fuel ih =>
    intro start hf
    by_cases hlt : start < (text.length : Int)
    · have hprog := chunkStep_progress text chunk_size chunk_overlap start hcs hb
      set s' := (chunkStep text chunk_size start).2 - chunk_overlap with hs'
      have hf' : (text.length : Int) < s' + fuel := by push_cast at hf ⊢; omega
      obtain ⟨rest, hrest, hmem, hchain, -⟩ := ih s' hf'
      refine ⟨⟨pyStrip (chunkStep text chunk_size start).1, start,
          start + ((chunkStep text chunk_size start).1.length : Int)⟩ :: rest, ?_, ?_, ?_, ?_⟩
      · simp only [chunkFixedSizeAux, if_pos hlt]
        rw [← hs', hrest]
      · intro c hc
        rcases List.mem_cons.1 hc with rfl | hc
        · exact le_refl _
        · exact le_trans (by omega) (hmem c hc)
      · refine List.chain'_cons'.2 ⟨?_, hchain⟩
        intro b hb'
        have hbmem : b ∈ rest := List.mem_of_mem_head? hb'
        have := hmem b hbmem
        simp only []
        omega
      · intro _; simp
    · refine ⟨[], ?_, by simp, by simp, fun h => absurd h hlt⟩
      simp [chunkFixedSizeAux, hlt]

/-- C1 (counterexample to the claim as stated): fixed-size chunking of a
non-empty all-whitespace text (ten spaces, `chunk_size = 5`, `overlap = 0`)
terminates but every produced chunk has *empty* text, because the stored
text is the stripped window; and for `chunk_size = 10`, `overlap = 8`
(valid per the claim: `0 ≤ overlap < chunk_size`) on the 17-character text
`"abcdefgh ijklmnop"` the loop never terminates — the window is trimmed to
the space at index 8, so the next start is `8 - 8 = 0` again, and the model
exhausts its fuel (`length + 1` steps, enough for any terminating run). -/
theorem chunkFixedSize_C1_counterexample :
    chunkFixedSize (List.replicate 10 ' ') 5 0 =
        some [⟨[], 0, 4⟩, ⟨[], 4, 8⟩, ⟨[], 8, 10⟩] ∧
      chunkFixedSize ("abcdefgh ijklmnop".toList) 10 8 = none :=
  ⟨by decide, by decide⟩

/-- C1 (amended): for every non-empty text, `chunk_size > 0` and
`0 ≤ overlap` with `10 * overlap < 7 * chunk_size` (i.e. the overlap stays
below the 70%-of-window trimming threshold), fixed-strategy segmentation
terminates and returns a non-empty chunk sequence whose `start_char` values
are strictly increasing.  (The chunks' texts need not be non-empty: an
all-whitespace window is stripped to the empty string, and for
`overlap ≥ 0.7 * chunk_size` the loop need not terminate at all — see the
counterexample.) -/
theorem chunkFixedSize_C1_terminates_strictMono (text : List Char)
    (chunk_size chunk_overlap : Int) (htext : text ≠ [])
    (hcs : 0 < chunk_size) (hov : 0 ≤ chunk_overlap)
    (hb : 10 * chunk_overlap < 7 * chunk_size) :
    ∃ chunks, chunkFixedSize text chunk_size chunk_overlap = some chunks ∧
      chunks ≠ [] ∧
      List.Chain' (fun a b => a.start_char < b.start_char) chunks := by
  have hlen : 0 < text.length := List.length_pos.2 htext
  have hf : (text.length : Int) < 0 + (text.length + 1 : Nat) := by
    push_cast; omega
  obtain ⟨chunks, heq, -, hchain, hne⟩ :=
    chunkFixedSizeAux_spec text chunk_size chunk_overlap hcs hb
      (text.length + 1) 0 hf
  exact ⟨chunks, heq, hne (by exact_mod_cast hlen), hchain⟩

/-- C1 witness: the amended theorem applied to the text `"ab"` with
`chunk_size = 1`, `overlap = 0`. -/
theorem chunkFixedSize_C1_witness :
    (['a', 'b'] : List Char) ≠ [] ∧ (0 : Int) < 1 ∧ (0 : Int) ≤ 0 ∧
      (10 : Int) * 0 < 7 * 1 ∧
      ∃ chunks, chunkFixedSize ['a', 'b'] 1 0 = some chunks ∧ chunks ≠ [] ∧
        List.Chain' (fun a b => a.start_char < b.start_char) chunks :=
  ⟨by decide, by decide, by decide, by decide,
    chunkFixedSize_C1_terminates_strictMono ['a', 'b'] 1 0 (by decide)
      (by decide) (by decide) (by decide)⟩

/-- C7 (counterexample to the claim as stated): a misconfigured
`chunk_size = -5` is neither clamped nor rejected by the parameter
resolution (`value or default` only replaces Python-falsy values), and with
the misconfigured pair `chunk_size = 2, overlap = 2` (violating
`overlap < chunk_size`) chunking work does start and the loop never exits
(`start` is reset to `end - overlap = start` every iteration; the model's
fuel of `length + 1` steps, enough for any terminating run, is exhausted) —
there is no immediate rejection. -/
theorem processPdf_C7_counterexample :
    resolveParam (some (-5)) 1000 = -5 ∧
      chunkFixedSize ['a', 'b', 'c', 'd'] 2 2 = none :=
  ⟨by decide, by decide⟩

/-- C7 (amended): segmentation parameters are not validated.  Only
Python-falsy values (`None` or `0`) are replaced by the configured defaults;
any other misconfigured value — negative, or an overlap at least as large as
the chunk size — is passed through unchanged and fully applied by the
chunker (here `overlap = -1` is silently used and chunking completes), and
with `overlap ≥ chunk_size` the fixed-strategy loop may never terminate. -/
theorem processPdf_C7_no_validation :
    resolveParam none 1000 = 1000 ∧ resolveParam (some 0) 1000 = 1000 ∧
      resolveParam (some (-1)) 200 = -1 ∧ resolveParam (some 7) 5 = 7 ∧
      chunkFixedSize ['a', 'b', 'c'] 4 (-1) = some [⟨['a', 'b', 'c'], 0, 3⟩] :=
  ⟨by decide, by decide, by decide, by decide, by decide⟩

/-- C5 (counterexample to the claim as stated): reprocessing document 7,
whose store holds one chunk, with a failing text extraction leaves the store
*empty* — the old chunk was deleted and committed before extraction, and no
new chunk was created — contradicting "the document's previously stored
chunks remain present unchanged" on extraction failure. -/
theorem processPdf_C5_counterexample :
    processPdf [⟨7, 0, ['x']⟩] 7 true true none (fun t => [t]) =
      ([], some .extractFailed) := by
  decide

/-- C5 (amended): `process_pdf` deletes and commits the document's old
chunks *before* extraction.  A file-type or file-missing failure leaves the
chunk table unchanged; an extraction failure or empty extracted text leaves
the document with *no* chunks (old deleted, none created); on success the
table holds exactly the other documents' rows plus the new chunk sequence.
Old and new chunks of the document are never simultaneously stored, but the
replacement is not all-or-nothing. -/
theorem processPdf_C5_replacement (db : List ChunkRow) (fid : Nat)
    ( isPdf fileOnDisk : Bool) (extractResult : Option (List Char))
    (split : List Char → List (List Char)) :
    (( isPdf = false ∨ fileOnDisk = false) →
        (processPdf db fid isPdf fileOnDisk extractResult split).1 = db) ∧
      ( isPdf = true → fileOnDisk = true →
        (extractResult = none ∨
            ∃ t, extractResult = some t ∧ pyStrip t = []) →
        (processPdf db fid isPdf fileOnDisk extractResult split).1 =
            db.filter (fun r => r.file_id ≠ fid) ∧
          (processPdf db fid isPdf fileOnDisk extractResult split).2 ≠ none) ∧
      (∀ t, isPdf = true → fileOnDisk = true → extractResult = some t →
        pyStrip t ≠ [] →
        processPdf db fid isPdf fileOnDisk extractResult split =
          (db.filter (fun r => r.file_id ≠ fid) ++
              (pyEnumerate 0 (split t)).map fun p => ⟨fid, p.1, p.2⟩,
            none)) := by
  refine ⟨?_, ?_, ?_⟩
  · rintro (h | h) <;> simp [processPdf, h] <;> split <;> simp
  · rintro h1 h2 (h3 | ⟨t, h3, h4⟩)
    · simp [processPdf, h1, h2, h3]
    · subst h1 h2 h3
      simp only [processPdf]
      rw [if_neg (by simp), if_neg (by simp), if_pos h4]
      exact ⟨rfl, by simp⟩
  · intro t h1 h2 h3 h4
    simp [processPdf, h1, h2, h3, h4]

/-- C5 witness: the amended theorem's failure clause applied to a concrete
store with chunks of documents 7 and 8, reprocessing document 7 with
whitespace-only extracted text. -/
theorem processPdf_C5_witness :
    (processPdf [⟨7, 0, ['x']⟩, ⟨8, 0, ['y']⟩] 7 true true (some [' '])
          (fun t => [t])).1 =
        [⟨7, 0, ['x']⟩, ⟨8, 0, ['y']⟩].filter (fun r => r.file_id ≠ 7) ∧
      (processPdf [⟨7, 0, ['x']⟩, ⟨8, 0, ['y']⟩] 7 true true (some [' '])
          (fun t => [t])).2 ≠ none :=
  (processPdf_C5_replacement [⟨7, 0, ['x']⟩, ⟨8, 0, ['y']⟩] 7 true true
      (some [' ']) (fun t => [t])).2.1 rfl rfl (Or.inr ⟨[' '], rfl, by decide⟩)

/-- C6 (counterexample to the claim as stated): loading a snapshot whose
index file is present but whose mapping file is *missing* does not leave the
store in the empty rebuild-triggering state — `load_index` loads the index
anyway (one artifact without the other), keeps the previous (here empty)
mapping, and reports success. -/
theorem loadIndex_C6_counterexample :
    VectorStore.loadIndex ⟨none, none, []⟩ (.good ⟨[[5]], 1⟩) .missing =
      (⟨some [[5]], some 1, []⟩, true) := by
  decide

/-- C6 (amended): `load_index` never crashes — every exception is caught —
but the two artifacts are not loaded all-or-nothing: a missing or unreadable
*index* file leaves the store unchanged and returns `False` (triggering
rebuild); a readable index file is always loaded, even when the mapping file
is missing (previous mapping kept, `True` returned) or unreadable (previous
mapping kept, `False` returned, with `index`/`dimension` already
overwritten). -/
theorem loadIndex_C6_characterization (st : VectorStore)
    (snap : IndexSnapshot) (m : List (Nat × Nat)) :
    (∀ mapFile, st.loadIndex .missing mapFile = (st, false)) ∧
      (∀ mapFile, st.loadIndex .corrupt mapFile = (st, false)) ∧
      st.loadIndex (.good snap) (.good m) =
        (⟨some snap.vecs, some snap.dim, m⟩, true) ∧
      st.loadIndex (.good snap) .missing =
        ({ st with index := some snap.vecs, dimension := some snap.dim },
          true) ∧
      st.loadIndex (.good snap) .corrupt =
        ({ st with index := some snap.vecs, dimension := some snap.dim },
          false) :=
  ⟨fun _ => rfl, fun _ => rfl, rfl, rfl, rfl⟩

/-- C4: with a non-empty index and established dimension `d`, adding a
vector of a different length fails with the dimension-mismatch error and
leaves the store — index contents, size, and position→chunk-id mapping —
unchanged (the Python `raise` happens before any mutation); with no index
(`self.index is None`), adding any vector succeeds and establishes the
dimension as that vector's length, storing it at position 0. -/
theorem addEmbedding_C4_dimension_invariant (st : VectorStore)
    (chunk_id : Nat) (v : List ℚ) (vecs : List (List ℚ)) (d : Nat) :
    (st.index = some vecs → vecs ≠ [] → st.dimension = some d →
        v.length ≠ d →
        st.addEmbeddingRun chunk_id v =
          (st, some (.dimensionMismatch (some d) v.length))) ∧
      (st.index = none →
        st.addEmbeddingRun chunk_id v =
          (⟨some [v], some v.length, [(0, chunk_id)]⟩, none)) := by
  constructor
  · intro h1 _ h3 h4
    have hne : st.dimension ≠ some v.length := by
      rw [h3]; simp; omega
    simp [VectorStore.addEmbeddingRun, VectorStore.addEmbedding, h1,
      if_pos hne, h3]
    rw [if_neg (fun h => h4 h.symm)]
  · intro h1
    simp [VectorStore.addEmbeddingRun, VectorStore.addEmbedding, h1]

/-- C4 witness: both clauses of the theorem at a concrete store holding one
1-dimensional vector — adding the 2-dimensional vector `[1, 2]` for chunk 3
fails and leaves the store unchanged — and at the fresh store, where adding
`[1, 2]` for chunk 3 establishes dimension 2. -/
theorem addEmbedding_C4_witness :
    (VectorStore.addEmbeddingRun ⟨some [[0]], some 1, [(0, 9)]⟩ 3 [1, 2] =
        (⟨some [[0]], some 1, [(0, 9)]⟩,
          some (.dimensionMismatch (some 1) 2)) ∧
      VectorStore.addEmbeddingRun ⟨none, none, []⟩ 3 [1, 2] =
        (⟨some [[1, 2]], some 2, [(0, 3)]⟩, none)) :=
  ⟨(addEmbedding_C4_dimension_invariant ⟨some [[0]], some 1, [(0, 9)]⟩ 3
        [1, 2] [[0]] 1).1 rfl (by decide) rfl (by decide),
    (addEmbedding_C4_dimension_invariant ⟨none, none, []⟩ 3 [1, 2] [] 1).2
      rfl⟩

/-! ## Lemmas about the vector store search -/

theorem pyEnumerate_length {α : Type} (l : List α) :
    ∀ n, (pyEnumerate n l).length = l.length := by
  induction l with
  | nil => intro n; rfl
  | cons a l ih => intro n; simp [pyEnumerate, ih]

theorem pyEnumerate_get? {α : Type} (l : List α) :
    ∀ (n j : Nat), (pyEnumerate n l).get? j = (l.get? j).map fun a => (n + j, a) := by
  induction l with
  | nil => intro n j; simp [pyEnumerate]
  | cons a l ih =>
    intro n j
    cases j with
    | zero => simp [pyEnumerate]
    | succ j =>
      simp only [pyEnumerate, List.get?_cons_succ, ih (n + 1) j]
      have : n + 1 + j = n + (j + 1) := by omega
      rw [this]

theorem pyEnumerate_mem_lt {α : Type} (l : List α) :
    ∀ (n : Nat) (p : Nat × α), p ∈ pyEnumerate n l → p.1 < n + l.length := by
  induction l with
  | nil => intro n p h; simp [pyEnumerate] at h
  | cons a l ih =>
    intro n p h
    rcases List.mem_cons.1 h with rfl | h
    · simp
    · have := ih (n + 1) p h
      simp at this ⊢
      omega

theorem dictLookup_pyEnumerate (l : List Nat) :
    ∀ (n j : Nat), dictLookup (pyEnumerate n l) j =
      if j < n then none else l.get? (j - n) := by
  induction l with
  | nil => intro n j; simp [pyEnumerate, dictLookup]
  | cons a l ih =>
    intro n j
    simp only [pyEnumerate, dictLookup]
    by_cases hj : j = n
    · subst hj
      simp
    · rw [if_neg hj, ih (n + 1) j]
      by_cases hlt : j < n
      · rw [if_pos (by omega), if_pos hlt]
      · rw [if_neg (by omega), if_neg hlt]
        have : j - n = (j - (n + 1)) + 1 := by omega
        rw [this]
        simp

theorem filterMap_eq_map_of_some {α β : Type} (f : α → Option β) (g : α → β) :
    ∀ l : List α, (∀ a ∈ l, f a = some (g a)) → l.filterMap f = l.map g := by
  intro l
  induction l with
  | nil => intro _; rfl
  | cons a l ih =>
    intro h
    rw [List.filterMap_cons, h a (List.mem_cons_self a l),
      ih fun b hb => h b (List.mem_cons_of_mem a hb), List.map_cons]

theorem take_min_length {α : Type} (l : List α) (k : Nat) :
    l.take (min k l.length) = l.take k := by
  rcases le_total k l.length with h | h
  · rw [min_eq_left h]
  · rw [min_eq_right h, List.take_of_length_le h, List.take_of_length_le le_rfl]

/-- Elements surviving into the search result: each taken pair's position is
a valid index of the vector list. -/
theorem faissSearch_mem_lt (vecs : List (List ℚ)) (q : List ℚ) (k : Nat)
    (p : Nat × ℚ) (hp : p ∈ faissSearch vecs q k) : p.1 < vecs.length := by
  have h1 : p ∈ List.insertionSort distLe
      (pyEnumerate 0 (vecs.map fun v => sqDist q v)) :=
    List.mem_of_mem_take hp
  have h2 := (List.mem_insertionSort distLe).1 h1
  have h3 := pyEnumerate_mem_lt _ 0 p h2
  simpa using h3

theorem faissSearch_length (vecs : List (List ℚ)) (q : List ℚ) (k : Nat) :
    (faissSearch vecs q k).length = min k vecs.length := by
  simp [faissSearch, pyEnumerate_length]

theorem faissSearch_pairwise (vecs : List (List ℚ)) (q : List ℚ) (k : Nat) :
    (faissSearch vecs q k).Pairwise distLe :=
  (List.sorted_insertionSort distLe _).sublist (List.take_sublist _ _)

/-- C2 (counterexample to the claim as stated): a store holding one
1-dimensional vector whose position→chunk-id map is empty (the state left
behind by loading an index snapshot whose mapping file is absent) returns
*zero* results for a 1-dimensional query with `top_k = 1`, not
`min(top_k, index_size) = 1`: search silently drops positions missing from
the map. -/
theorem search_C2_counterexample :
    (VectorStore.search ⟨some [[0]], some 1, []⟩ [0] 1).length ≠ min 1 1 := by
  decide

/-- C2 (amended): for every index state whose position→chunk-id map covers
every index position (as after `build_index` or a fully loaded snapshot),
every query, and every `top_k > 0`, `search` returns exactly
`min(top_k, index_size)` `(chunk_id, distance)` pairs, sorted ascending by
squared-L2 distance (best match first). -/
theorem search_C2_length_sorted (st : VectorStore) (vecs : List (List ℚ))
    (q : List ℚ) (top_k : Nat) (hidx : st.index = some vecs)
    (hk : top_k ≠ 0)
    (hcov : ∀ i, i < vecs.length →
      (dictLookup st.chunk_id_map i).isSome = true) :
    (st.search q top_k).length = min top_k vecs.length ∧
      List.Chain' (fun a b : Nat × ℚ => a.2 ≤ b.2) (st.search q top_k) := by
  simp only [VectorStore.search, hidx]
  by_cases hn : vecs.length = 0
  · simp [hn]
  · rw [if_neg hn]
    simp only [if_neg hk]
    set F : Nat × ℚ → Option (Nat × ℚ) := fun p =>
      (dictLookup st.chunk_id_map p.1).map fun cid => (cid, p.2) with hF
    set g : Nat × ℚ → Nat × ℚ := fun p =>
      ((dictLookup st.chunk_id_map p.1).getD 0, p.2) with hg
    have hsome : ∀ p ∈ faissSearch vecs q (min top_k vecs.length),
        F p = some (g p) := by
      intro p hp
      have hlt := faissSearch_mem_lt vecs q _ p hp
      obtain ⟨cid, hcid⟩ := Option.isSome_iff_exists.1 (hcov p.1 hlt)
      simp [hF, hg, hcid]
    rw [filterMap_eq_map_of_some F g _ hsome]
    constructor
    · rw [List.length_map, faissSearch_length]
      omega
    · have hpw := faissSearch_pairwise vecs q (min top_k vecs.length)
      exact ((hpw.map g) fun a b hab => hab).chain'

/-- C2 witness: the amended theorem at a store holding one 1-dimensional
vector with a complete map, query `[1]`, `top_k = 3`: exactly
`min 3 1 = 1` result, trivially sorted. -/
theorem search_C2_witness :
    (VectorStore.search ⟨some [[2]], some 1, [(0, 4)]⟩ [1] 3).length =
        min 3 1 ∧
      List.Chain' (fun a b : Nat × ℚ => a.2 ≤ b.2)
        (VectorStore.search ⟨some [[2]], some 1, [(0, 4)]⟩ [1] 3) :=
  search_C2_length_sorted ⟨some [[2]], some 1, [(0, 4)]⟩ [[2]] [1] 3 rfl
    (by decide) (by decide)

/-- Mapping the enumerated-distances list through the position→chunk-id
resolution yields the directly annotated `(chunk_id, distance)` list. -/
theorem pyEnumerate_map_resolve (E : List (Nat × List ℚ)) (q : List ℚ) :
    (pyEnumerate 0 (E.map fun p => sqDist q p.2)).map
        (fun p => (((E.map fun p => p.1).get? p.1).getD 0, p.2)) =
      E.map fun e => (e.1, sqDist q e.2) := by
  apply List.ext_get?_iff.2
  intro j
  rw [List.get?_map, pyEnumerate_get?, List.get?_map, List.get?_map]
  cases hj : E.get? j with
  | none => simp
  | some ej =>
    rw [List.get?_eq_getElem?] at hj
    simp [hj]

/-- C3 (counterexample to the claim as stated, at `k = 0`): after building
an index over the single embedding `(chunk 1, [0])`, `search(v, 0)` falls
back to the configured default `top_k` (Python `top_k or settings.search_top_k`
treats `0` as falsy) and returns one result, while directly taking the `0`
smallest distances returns nothing. -/
theorem search_buildIndex_C3_counterexample :
    VectorStore.search
        (VectorStore.buildIndex ⟨none, none, []⟩ [(1, [(0 : ℚ)])]) [0] 0 =
        [(1, 0)] ∧
      specRanking [(1, [(0 : ℚ)])] [0] 0 = [] := by
  constructor
  · norm_num [VectorStore.search, VectorStore.buildIndex, faissSearch,
      pyEnumerate, sqDist, dictLookup, searchTopKDefault,
      List.filterMap_cons, Prod.ext_iff]
  · norm_num [specRanking]

/-- C3 (amended): for every starting store state, embedding set `E` (as
`(chunk_id, vector)` pairs in database order), query `q` and `k ≥ 1`,
`build_index` over `E` followed by `search(q, k)` returns exactly the
`(chunk_id, distance)` sequence obtained by directly annotating every
embedding of `E` with its squared-L2 distance to `q`, sorting ascending
(stably), and keeping the first `k`.  (At `k = 0` the two sides differ:
Python replaces the falsy `0` by the configured default `top_k`.) -/
theorem search_buildIndex_C3_refines (st0 : VectorStore)
    (E : List (Nat × List ℚ)) (q : List ℚ) (k : Nat) (hk : k ≠ 0) :
    (st0.buildIndex E).search q k = specRanking E q k := by
  cases E with
  | nil => simp [VectorStore.buildIndex, VectorStore.search, specRanking]
  | cons e E' =>
    simp only [VectorStore.buildIndex, VectorStore.search]
    rw [if_neg (by simp)]
    simp only [if_neg hk]
    set vecs : List (List ℚ) := (e :: E').map fun p => p.2 with hvecs
    set ids : List Nat := (e :: E').map fun p => p.1 with hids
    set F : Nat × ℚ → Option (Nat × ℚ) := fun p =>
      (dictLookup (pyEnumerate 0 ids) p.1).map fun cid => (cid, p.2) with hF
    set g : Nat × ℚ → Nat × ℚ := fun p =>
      ((ids.get? p.1).getD 0, p.2) with hg
    have hsome : ∀ p ∈ faissSearch vecs q (min k vecs.length),
        F p = some (g p) := by
      intro p hp
      have hlt := faissSearch_mem_lt vecs q _ p hp
      have hlt' : p.1 < ids.length := by
        simpa [hvecs, hids] using hlt
      have hc := List.get?_eq_get hlt'
      rw [hF, hg]
      simp only [dictLookup_pyEnumerate, Nat.not_lt_zero, if_false,
        Nat.sub_zero]
      rw [hc]
      simp [hc]
    rw [filterMap_eq_map_of_some F g _ hsome]
    rw [faissSearch, List.map_take,
      List.map_insertionSort distLe distLe g _ fun a ha b hb => Iff.rfl]
    have hmm : (pyEnumerate 0 (vecs.map fun v => sqDist q v)).map g =
        (e :: E').map fun p => (p.1, sqDist q p.2) := by
      rw [hvecs, List.map_map]
      exact pyEnumerate_map_resolve (e :: E') q
    rw [hmm, specRanking]
    have hlen : (List.insertionSort distLe
        ((e :: E').map fun p => (p.1, sqDist q p.2))).length = vecs.length := by
      rw [List.length_insertionSort, List.length_map, hvecs, List.length_map]
    rw [← hlen, take_min_length]

/-- C3 witness: the amended theorem at the two-embedding set
`[(5, [0]), (6, [3])]`, query `[1]`, `k = 1`. -/
theorem search_buildIndex_C3_witness :
    VectorStore.search
        (VectorStore.buildIndex ⟨none, none, []⟩ [(5, [(0 : ℚ)]), (6, [3])])
        [1] 1 =
      specRanking [(5, [(0 : ℚ)]), (6, [3])] [1] 1 :=
  search_buildIndex_C3_refines ⟨none, none, []⟩ [(5, [(0 : ℚ)]), (6, [3])]
    [1] 1 (by decide)

/-- C10: `search` is total on any index state — a result position absent
from `chunk_id_map` is silently skipped rather than raised on: every
returned pair's chunk id comes from the map at some present position; the
result never exceeds `min(top_k, index_size)` pairs; and it can be strictly
shorter — here a store with two vectors and an empty map (the state left by
loading a snapshot whose mapping file was absent) returns no results at
all. -/
theorem search_C10_skips_unmapped :
    (∀ (st : VectorStore) (q : List ℚ) (k : Nat) (p : Nat × ℚ),
        p ∈ st.search q k →
        ∃ pos, dictLookup st.chunk_id_map pos = some p.1) ∧
      (∀ (st : VectorStore) (vecs : List (List ℚ)) (q : List ℚ) (k : Nat),
        st.index = some vecs → k ≠ 0 →
        (st.search q k).length ≤ min k vecs.length) ∧
      (VectorStore.search ⟨some [[5]], some 1, []⟩ [3] 7).length <
        min 7 1 := by
  refine ⟨?_, ?_, by decide⟩
  · intro st q k p hp
    rcases hidx : st.index with - | vecs
    · simp only [VectorStore.search, hidx] at hp
      simp at hp
    · simp only [VectorStore.search, hidx] at hp
      by_cases hn : vecs.length = 0
      · rw [if_pos hn] at hp
        simp at hp
      · rw [if_neg hn] at hp
        obtain ⟨a, -, ha⟩ := List.mem_filterMap.1 hp
        obtain ⟨c, hc, hceq⟩ := Option.map_eq_some'.1 ha
        exact ⟨a.1, by rw [hc, ← hceq]⟩
  · intro st vecs q k hidx hk
    simp only [VectorStore.search, hidx]
    by_cases hn : vecs.length = 0
    · simp [hn]
    · rw [if_neg hn]
      simp only [if_neg hk]
      calc (List.filterMap _ (faissSearch vecs q (min k vecs.length))).length
          ≤ (faissSearch vecs q (min k vecs.length)).length :=
            List.length_filterMap_le _ _
        _ = min (min k vecs.length) vecs.length := faissSearch_length _ _ _
        _ ≤ min k vecs.length := by omega

/-- C10 witness: the bound clause of the theorem at a concrete store with
one mapped vector, `top_k = 3`. -/
theorem search_C10_witness :
    (VectorStore.search ⟨some [[2]], some 1, [(0, 4)]⟩ [1] 3).length ≤
      min 3 1 :=
  search_C10_skips_unmapped.2.1 ⟨some [[2]], some 1, [(0, 4)]⟩ [[2]] [1] 3
    rfl (by decide)

/-! ## Lemmas about `_text_overlap` -/

/-- Characterization of `_text_overlap`: true exactly when both token sets
(of the texts as given) are non-empty and their Jaccard similarity reaches
the threshold. -/
theorem textOverlap_iff (t1 t2 : List Char) (th : ℚ) :
    TimestampService.textOverlap t1 t2 th = true ↔
      (tokenSet t1).Nonempty ∧ (tokenSet t2).Nonempty ∧
        ((tokenSet t1 ∩ tokenSet t2).card : ℚ) /
          ((tokenSet t1 ∪ tokenSet t2).card : ℚ) ≥ th := by
  rw [TimestampService.textOverlap]
  by_cases h1 : tokenSet t1 = ∅ ∨ tokenSet t2 = ∅
  · rw [if_pos h1]
    simp only [Bool.false_eq_true, false_iff]
    rintro ⟨hn1, hn2, -⟩
    rcases h1 with h1 | h1
    · exact Finset.not_nonempty_empty (h1 ▸ hn1)
    · exact Finset.not_nonempty_empty (h1 ▸ hn2)
  · rw [if_neg h1]
    push_neg at h1
    have hn1 : (tokenSet t1).Nonempty := Finset.nonempty_iff_ne_empty.2 h1.1
    have hn2 : (tokenSet t2).Nonempty := Finset.nonempty_iff_ne_empty.2 h1.2
    have huni : tokenSet t1 ∪ tokenSet t2 ≠ ∅ :=
      Finset.nonempty_iff_ne_empty.1 (hn1.mono Finset.subset_union_left)
    rw [if_neg huni]
    simp [hn1, hn2]

/-- C8 (counterexample to the claim as stated): `_text_overlap` does not
lower-case its inputs (its callers do): on `("A", "a")` it returns `False`,
although the Jaccard similarity of the *lower-cased* token sets is `1 ≥ 0.3`. -/
theorem textOverlap_C8_counterexample :
    TimestampService.textOverlap ['A'] ['a'] (3 / 10) = false ∧
      ((lowerTokens ['A'] ∩ lowerTokens ['a']).card : ℚ) /
        ((lowerTokens ['A'] ∪ lowerTokens ['a']).card : ℚ) ≥ 3 / 10 := by
  constructor
  · rw [Bool.eq_false_iff]
    intro h
    obtain ⟨-, -, hsim⟩ := (textOverlap_iff ['A'] ['a'] (3 / 10)).1 h
    have hi : (tokenSet ['A'] ∩ tokenSet ['a']).card = 0 := by decide
    have hu : (tokenSet ['A'] ∪ tokenSet ['a']).card = 2 := by decide
    rw [hi, hu] at hsim
    norm_num at hsim
  · have hi : (lowerTokens ['A'] ∩ lowerTokens ['a']).card = 1 := by decide
    have hu : (lowerTokens ['A'] ∪ lowerTokens ['a']).card = 1 := by decide
    rw [hi, hu]
    norm_num

/-- C8 (amended): `_text_overlap(t1, t2, th)` is true iff the Jaccard
similarity `|A∩B| / |A∪B|` of the whitespace-token sets of the texts *as
given* (lower-casing is the callers' job) is at least `th`, with `False` —
not a division error — whenever either token set is empty; in particular it
is true on `("machine learning", "machine learning is fun")` and false on
`("totally different", "machine learning")` at threshold `0.3`. -/
theorem textOverlap_C8_jaccard :
    (∀ (t1 t2 : List Char) (th : ℚ),
        TimestampService.textOverlap t1 t2 th = true ↔
          (tokenSet t1).Nonempty ∧ (tokenSet t2).Nonempty ∧
            ((tokenSet t1 ∩ tokenSet t2).card : ℚ) /
              ((tokenSet t1 ∪ tokenSet t2).card : ℚ) ≥ th) ∧
      TimestampService.textOverlap "machine learning".toList
        "machine learning is fun".toList (3 / 10) = true ∧
      TimestampService.textOverlap "totally different".toList
        "machine learning".toList (3 / 10) = false := by
  refine ⟨textOverlap_iff, ?_, ?_⟩
  · rw [textOverlap_iff]
    refine ⟨by decide, by decide, ?_⟩
    have hi : (tokenSet "machine learning".toList ∩
        tokenSet "machine learning is fun".toList).card = 2 := by decide
    have hu : (tokenSet "machine learning".toList ∪
        tokenSet "machine learning is fun".toList).card = 4 := by decide
    rw [hi, hu]
    norm_num
  · rw [Bool.eq_false_iff]
    intro h
    obtain ⟨-, -, hsim⟩ := (textOverlap_iff _ _ _).1 h
    have hi : (tokenSet "totally different".toList ∩
        tokenSet "machine learning".toList).card = 0 := by decide
    have hu : (tokenSet "totally different".toList ∪
        tokenSet "machine learning".toList).card = 4 := by decide
    rw [hi, hu] at hsim
    norm_num at hsim

/-- The merging loop always returns a non-empty list whose head keeps the
running segment's start, and whose consecutive output segments are
separated by more than the gap threshold. -/
theorem mergeAux_chain (gap : ℚ) :
    ∀ (l : List TsSegment) (cur : TsSegment),
      ∃ h t, TimestampService.mergeAux gap cur l = h :: t ∧
        h.start = cur.start ∧
        List.Chain' (fun a b => a.endTime + gap < b.start) (h :: t) := by
  intro l
  induction l with
  | nil => intro cur; exact ⟨cur, [], rfl, rfl, List.chain'_singleton _⟩
  | cons s rest ih =>
    intro cur
    simp only [TimestampService.mergeAux]
    by_cases hm : s.start ≤ cur.endTime + gap
    · rw [if_pos hm]
      obtain ⟨h, t, heq, hstart, hchain⟩ := ih _
      exact ⟨h, t, heq, hstart, hchain⟩
    · rw [if_neg hm]
      obtain ⟨h, t, heq, hstart, hchain⟩ := ih s
      refine ⟨cur, h :: t, by rw [heq], rfl, ?_⟩
      refine List.chain'_cons.2 ⟨?_, hchain⟩
      rw [hstart]
      linarith [not_le.1 hm]

/-- C9: on the hit list `[(0,5),(6,8),(20,22)]` (texts `a`, `b`, `c`) with
`gap_threshold = 2`, merging returns exactly the two groups `(0,8)` — with
`end` extended to the max, the texts joined by a single space and
`duration = end - start = 8` — and `(20,22)`; and in general (for any hit
list) segment `N+1` is absorbed into the running segment exactly when
`start(N+1) ≤ end(running) + gap`: consecutive segments of the output are
always separated by more than the gap threshold. -/
theorem mergeSegments_C9 :
    TimestampService.mergeOverlappingSegments
        [⟨0, 5, ['a'], 5⟩, ⟨6, 8, ['b'], 2⟩, ⟨20, 22, ['c'], 2⟩] 2 =
        [⟨0, 8, ['a', ' ', 'b'], 8⟩, ⟨20, 22, ['c'], 2⟩] ∧
      ∀ (segments : List TsSegment) (gap : ℚ),
        List.Chain' (fun a b => a.endTime + gap < b.start)
          (TimestampService.mergeOverlappingSegments segments gap) := by
  constructor
  · norm_num [TimestampService.mergeOverlappingSegments,
      TimestampService.mergeAux]
  · intro segments gap
    cases segments with
    | nil => simp [TimestampService.mergeOverlappingSegments]
    | cons s rest =>
      obtain ⟨h, t, heq, -, hchain⟩ := mergeAux_chain gap rest s
      simp only [TimestampService.mergeOverlappingSegments]
      rw [heq]
      exact hchain
